import Mathlib

/-!
Verification of the MUP1 / CoAP host-side control library.

Shallow embedding of the protocol core:
* `src/js/velocitydrive-protocol.js` — MUP1 frame codec (encode, decode,
  escaping, 16-bit one's-complement checksum) and announcement parsing.
* `src/js/pages.js` (`handleIncomingData`) — byte reassembler.
* the CoAP client — option encoding, message building, response parsing,
  response handling, message-id allocation, request flow.
* the controller's event bus — `on` / `once` / `off` / `emit`.

Bytes are modelled as `Nat` (all source values stay below 2^16, far below any
JavaScript precision edge); JS arrays of pushed bytes become `List Nat`.
-/

namespace VelocityDrive

/-! ### MUP1 frame codec (src/js/velocitydrive-protocol.js) -/

def SOF : Nat := 0x3E

def EOF : Nat := 0x3C

def ESCAPE : Nat := 0x5C

/-- `needsEscape(byte)` from the source. -/
def needsEscape (b : Nat) : Bool :=
  b == 0x00 || b == 0xFF || b == 0x3E || b == 0x3C || b == 0x5C

/-- `this.ESCAPE_MAP[byte]`; only read under a `needsEscape` guard, the
default branch mirrors JS `undefined` never being reached there. -/
def escapeMapped (b : Nat) : Nat :=
  match b with
  | 0x00 => 0x30
  | 0xFF => 0x46
  | 0x3E => 0x3E
  | 0x3C => 0x3C
  | 0x5C => 0x5C
  | _ => b

/-- The `reverseMap` literal inside `unescapeByte`. -/
def reverseMap (b : Nat) : Option Nat :=
  match b with
  | 0x30 => some 0x00
  | 0x46 => some 0xFF
  | 0x3E => some 0x3E
  | 0x3C => some 0x3C
  | 0x5C => some 0x5C
  | _ => none

/-- JS `a || b` on a number lookup: `undefined` and `0` are both falsy. -/
def jsOr (v : Option Nat) (dflt : Nat) : Nat :=
  match v with
  | some x => if x = 0 then dflt else x
  | none => dflt

/-- `unescapeByte(escapedByte)`: `return reverseMap[escapedByte] || escapedByte`.
Note the JS falsy quirk: `reverseMap[0x30]` is `0x00`, which is falsy, so the
function returns `0x30` for input `0x30`. -/
def unescapeByte (b : Nat) : Nat :=
  jsOr (reverseMap b) b

/-- One pass of the word sum in `calculateChecksum`: big-endian 16-bit words,
an odd trailing byte contributes `byte << 8`. -/
def sumWords : List Nat → Nat
  | [] => 0
  | [a] => a <<< 8
  | a :: b :: rest => ((a <<< 8) ||| b) + sumWords rest

/-- The carry-folding loop `while (sum >> 16) sum = (sum & 0xFFFF) + (sum >> 16)`.
Each iteration strictly decreases `sum` when `sum ≥ 2^16`, so `sum` itself
bounds the number of iterations; the fuel argument makes the recursion
structural and kernel-computable. -/
def foldCarryAux : Nat → Nat → Nat
  | 0, s => s
  | fuel + 1, s => if s / 65536 = 0 then s else foldCarryAux fuel (s % 65536 + s / 65536)

def foldCarry (s : Nat) : Nat := foldCarryAux s s

/-- `calculateChecksum(data)`: fold carries, then `(~sum) & 0xFFFF`; after the
folding loop `sum < 2^16`, so the masked complement is `sum ^^^ 0xFFFF`. -/
def calculateChecksum (data : List Nat) : Nat :=
  foldCarry (sumWords data) ^^^ 0xFFFF

/-- One hex digit of `toString(16).toUpperCase()`. -/
def hexDigitCode (n : Nat) : Nat :=
  if n < 10 then 48 + n else 55 + n

/-- `checksum.toString(16).toUpperCase().padStart(4, '0')` as the four ASCII
codes, for checksums below 2^16. -/
def checksumAscii (c : Nat) : List Nat :=
  [hexDigitCode (c / 4096 % 16), hexDigitCode (c / 256 % 16),
   hexDigitCode (c / 16 % 16), hexDigitCode (c % 16)]

/-- The escaping loop of `encodeFrame`. -/
def escapeData (data : List Nat) : List Nat :=
  (data.map (fun b => if needsEscape b then [ESCAPE, escapeMapped b] else [b])).flatten

/-- `encodeFrame(type, data)`: SOF, type, escaped data, EOF; a second EOF when
the frame length so far is even (`frame.length % 2 === 0`); then the checksum
over everything emitted so far as four uppercase hex ASCII bytes. -/
def encodeFrame (type : Nat) (data : List Nat) : List Nat :=
  let withEOF := SOF :: type :: escapeData data ++ [EOF]
  let frame := if withEOF.length % 2 = 0 then withEOF ++ [EOF] else withEOF
  frame ++ checksumAscii (calculateChecksum frame)

/-- The data loop of `decodeFrame`: walks the region `buffer[2 .. len-4)`,
checking for EOF *before* the pending-escape flag, exactly as the source does. -/
def decodeLoop : List Nat → Bool → List Nat
  | [], _ => []
  | b :: rest, escaping =>
    if b = EOF then []
    else if escaping then unescapeByte b :: decodeLoop rest false
    else if b = ESCAPE then decodeLoop rest true
    else b :: decodeLoop rest false

/-- Result of `decodeFrame`: the JS object `{type, data, checksum}` plus the
checksum the decoder recomputed (the source compares the two and only warns). -/
structure Decoded where
  type : Nat
  data : List Nat
  provided : List Nat
  calculated : List Nat
deriving Repr, DecidableEq

/-- Whether the received checksum matches the recomputed one (the source logs
a warning exactly when this is false). -/
def checksumOk (d : Decoded) : Bool := d.provided == d.calculated

/-- `decodeFrame(buffer)`.  `frameEnd` is `buffer.indexOf(EOF, 2)`; the
`none` branch (no EOF at all, JS would read at negative indices) is
unreachable for the frames considered here.  Out-of-range reads
(`buffer[i]` = `undefined`) are modelled by `getD _ 0`, which like
`undefined` never equals `EOF`. -/
def decodeFrame (buffer : List Nat) : Except String Decoded :=
  if buffer.length < 8 then .error "Frame too short"
  else if buffer.getD 0 0 ≠ SOF then .error "Invalid start of frame"
  else
    let type := buffer.getD 1 0
    let data := decodeLoop ((buffer.drop 2).take (buffer.length - 6)) false
    match (buffer.drop 2).findIdx? (· = EOF) with
    | none => .error "no EOF"
    | some k =>
      let frameEnd := 2 + k
      let checksumStart := if buffer.getD (frameEnd + 1) 0 = EOF then frameEnd + 2 else frameEnd + 1
      let provided := [buffer.getD checksumStart 0, buffer.getD (checksumStart + 1) 0,
                       buffer.getD (checksumStart + 2) 0, buffer.getD (checksumStart + 3) 0]
      let calculated := checksumAscii (calculateChecksum (buffer.take (frameEnd + 1)))
      .ok ⟨type, data, provided, calculated⟩

/-! ### Byte reassembler (`handleIncomingData` in src/js/pages.js)

The extraction loop: find the first SOF (`0x3E`), then the first `0x3C` from
there — a raw byte scan, escape pairs are not honoured — then take 5 bytes
past it (6 when the next byte is another `0x3C`), slice that out as a frame
and continue on the remainder.  Each emitted frame consumes at least 5 bytes
of buffer, so `buf.length` bounds the number of iterations; the fuel keeps
the recursion structural and kernel-computable. -/

def handleIncomingAux : Nat → List Nat → List (List Nat) × List Nat
  | 0, buf => ([], buf)
  | fuel + 1, buf =>
    match buf.findIdx? (· = 0x3E) with
    | none => ([], buf)
    | some start =>
      match (buf.drop start).findIdx? (· = 0x3C) with
      | none => ([], buf)
      | some k =>
        let endIndex := start + k
        let checksumEnd :=
          if buf.getD (endIndex + 1) 0 = 0x3C then endIndex + 6 else endIndex + 5
        if buf.length < checksumEnd then ([], buf)
        else
          let frame := (buf.drop start).take (checksumEnd - start)
          let next := handleIncomingAux fuel (buf.drop checksumEnd)
          (frame :: next.1, next.2)

/-- `handleIncomingData(bytes)` applied to the concatenated buffer: the list
of frames handed to `onDataCallback` and the bytes retained in the buffer. -/
def handleIncomingData (buf : List Nat) : List (List Nat) × List Nat :=
  handleIncomingAux buf.length buf

/-! ### CoAP client (the coap-client source file)

`cborEncode` / `cborDecode` are external collaborators; payloads are carried
as their already-encoded byte lists. -/

/-- `this.RESPONSE_CODES` of the client constructor, as a partial lookup:
JS object indexing yields `undefined` for absent keys. -/
def RESPONSE_CODES (code : Nat) : Option String :=
  match code with
  | 201 => some "Created"
  | 202 => some "Deleted"
  | 203 => some "Valid"
  | 204 => some "Changed"
  | 205 => some "Content"
  | 400 => some "Bad Request"
  | 401 => some "Unauthorized"
  | 404 => some "Not Found"
  | 405 => some "Method Not Allowed"
  | 500 => some "Internal Server Error"
  | _ => none

/-! JS strings are modelled as `List Char` so that every operation is a
structural recursion the kernel can evaluate.  The inputs of interest are
ASCII, where JS UTF-16 units, code points and `charCodeAt` values coincide
with `Char.toNat`. -/

/-- JS `s.split(sep)` for a one-character separator: splits at every
occurrence and keeps empty pieces (`''.split(c) = ['']`). -/
def jsSplit (sep : Char) : List Char → List (List Char)
  | [] => [[]]
  | x :: rest =>
    if x = sep then [] :: jsSplit sep rest
    else
      match jsSplit sep rest with
      | t :: ts => (x :: t) :: ts
      | [] => [[x]]

/-- `charCodeAt` over a segment. -/
def segmentChars (s : List Char) : List Nat :=
  s.map Char.toNat

/-- The option-header bytes pushed for one Uri-Path segment, mirroring the
source's `firstByte` mutation: in the extended branch a `firstByte` of `0`
is falsy, so `if (firstByte) options.push(...)` pushes nothing. -/
def pathOptionBytes (delta len : Nat) : List Nat :=
  if delta < 13 && len < 13 then
    [(delta <<< 4) ||| len]
  else
    let deltaPart : List Nat × Nat :=
      if delta < 13 then ([], delta <<< 4)
      else if delta < 269 then ([13 <<< 4, delta - 13], 0)
      else ([14 <<< 4, (delta - 269) / 256, (delta - 269) % 256], 0)
    let lenPart : List Nat :=
      if len < 13 then
        (if deltaPart.2 ≠ 0 then [deltaPart.2 ||| len] else [])
      else if len < 269 then
        (if deltaPart.2 ≠ 0 then [deltaPart.2 ||| 13] else []) ++ [len - 13]
      else
        (if deltaPart.2 ≠ 0 then [deltaPart.2 ||| 14] else [])
          ++ [(len - 269) / 256, (len - 269) % 256]
    deltaPart.1 ++ lenPart

/-- The `segments.forEach` loop of `encodeOptions`: accumulated option bytes
together with the running `prevOption` (0 initially, 11 after any segment). -/
def uriPathOptions (segments : List (List Char)) : List Nat × Nat :=
  segments.foldl
    (fun acc seg =>
      (acc.1 ++ pathOptionBytes (11 - acc.2) seg.length ++ segmentChars seg, 11))
    ([], 0)

/-- The Uri-Query loop of `encodeOptions` (option 15), entered with
`prevOption = 12`. -/
def uriQueryOptions (queryPart : List Char) : List Nat :=
  ((jsSplit '&' queryPart).filter (fun q => q ≠ [])).foldl
    (fun acc q =>
      let qBytes := segmentChars q
      let delta := 15 - acc.2
      let hdr :=
        if delta < 13 && qBytes.length < 13 then
          [(delta <<< 4) ||| qBytes.length]
        else
          [((if delta < 13 then delta else 13) <<< 4) ||| 13, qBytes.length - 13]
      (acc.1 ++ hdr ++ qBytes, 15))
    (([], 12) : List Nat × Nat)
  |>.1

/-- The path segments of a URI: `uri.split('?')[0].split('/').filter(s => s)`. -/
def uriSegments (uri : List Char) : List (List Char) :=
  ((jsSplit '/' ((jsSplit '?' uri).headD [])).filter (fun s => s ≠ []))

/-- `encodeOptions(uri)`.  The Content-Format option (number 12, one byte
`60`) is pushed unconditionally between the path and query loops.  JS
`if (queryPart)` is false for both `undefined` (no `?`) and the empty
string, modelled by the `[]` default. -/
def encodeOptions (uri : List Char) : List Nat :=
  let queryPart := (jsSplit '?' uri).getD 1 []
  let path := uriPathOptions (uriSegments uri)
  let opts := path.1 ++ [((12 - path.2) <<< 4) ||| 1, 60]
  if queryPart = [] then opts else opts ++ uriQueryOptions queryPart

/-- `buildMessage(method, uri, payload, messageId)`: fixed header
`(ver=1,type=CON,TKL=0)`, code, big-endian message id, options, then the
`0xFF` marker and the (externally CBOR-encoded) payload when one is present
(JS `if (payload)`: `null` is falsy). -/
def buildMessage (method : Nat) (uri : List Char) (payload : Option (List Nat))
    (messageId : Nat) : List Nat :=
  [(1 <<< 6) ||| (0 <<< 4) ||| 0, method, (messageId >>> 8) &&& 0xFF, messageId &&& 0xFF]
    ++ encodeOptions uri
    ++ (match payload with
        | none => []
        | some bytes => 0xFF :: bytes)

/-- Result of `parseResponse`; the payload is the raw byte slice after the
marker (`cborDecode` is external, and on failure the source falls back to
the raw bytes anyway). -/
structure ParsedResponse where
  version : Nat
  msgType : Nat
  tokenLength : Nat
  code : Nat
  messageId : Nat
  token : Nat
  payload : Option (List Nat)
deriving Repr, DecidableEq

/-- `parseResponse(data)`. -/
def parseResponse (data : List Nat) : Except String ParsedResponse :=
  if data.length < 4 then .error "Invalid CoAP message"
  else
    let version := (data.getD 0 0 >>> 6) &&& 0x03
    let msgType := (data.getD 0 0 >>> 4) &&& 0x03
    let tokenLength := data.getD 0 0 &&& 0x0F
    let code := data.getD 1 0
    let messageId := (data.getD 2 0 <<< 8) ||| data.getD 3 0
    let offset := 4 + tokenLength
    let token := ((data.drop 4).take tokenLength).foldl (fun t b => (t <<< 8) ||| b) 0
    let payload :=
      match (data.drop offset).findIdx? (· = 0xFF) with
      | none => none
      | some j =>
        let payloadStart := offset + j + 1
        if payloadStart < data.length then some (data.drop payloadStart) else none
    .ok ⟨version, msgType, tokenLength, code, messageId, token, payload⟩

/-- The error message of `handleResponse`:
`this.RESPONSE_CODES[response.code] || \x60Error ${response.code}\x60`. -/
def errorReason (code : Nat) : String :=
  (RESPONSE_CODES code).getD ("Error " ++ toString code)

/-- What `handleResponse` does to the matched pending request. -/
inductive CoapOutcome where
  | resolved (mid : Nat) (payload : Option (List Nat))
  | rejected (mid : Nat) (code : Nat) (reason : String)
  | ignored
deriving Repr, DecidableEq

/-- `handleResponse(data, rawFrame)` over the pending map (keys only; the
stored resolver and metadata do not affect control flow).  On a message-id
hit the entry is deleted, then class `code / 32 = 2` resolves and any other
class rejects — synchronously, in the same dispatch turn. -/
def handleResponse (pending : List Nat) (data : List Nat) : List Nat × CoapOutcome :=
  match parseResponse data with
  | .error _ => (pending, .ignored)
  | .ok r =>
    if r.messageId ∈ pending then
      let pending' := pending.erase r.messageId
      if r.code / 32 = 2 then (pending', .resolved r.messageId r.payload)
      else (pending', .rejected r.messageId r.code (errorReason r.code))
    else (pending, .ignored)

/-! ### Request tracker: message-id allocation and the `request` flow -/

/-- Tracker state: the constructor sets `this.messageId = 1` and an empty
pending map (keys listed in insertion order). -/
structure TrackerState where
  messageId : Nat
  pending : List Nat
deriving Repr, DecidableEq

def initialTracker : TrackerState := ⟨1, []⟩

/-- `const mid = this.messageId++` followed by
`this.pendingRequests.set(mid, ...)`: a plain unbounded post-increment,
no masking, no collision check. -/
def allocateMid (st : TrackerState) : Nat × TrackerState :=
  (st.messageId, ⟨st.messageId + 1, st.pending ++ [st.messageId]⟩)

/-- Tracker state after `n` calls to `request()`. -/
def trackerAfter : Nat → TrackerState
  | 0 => initialTracker
  | n + 1 => (allocateMid (trackerAfter n)).2

/-- The message id allocated by the `n`-th `request()` call (0-based). -/
def nthMid (n : Nat) : Nat := (allocateMid (trackerAfter n)).1

/-- Observable steps of one `request()` call, in program order. -/
inductive ReqAction where
  | registerPending (mid : Nat)
  | sendFrame (mid : Nat)
deriving Repr, DecidableEq

/-- What the caller of `request()` observes. -/
inductive ReqOutcome where
  | awaiting (mid : Nat)
  | transportError
deriving Repr, DecidableEq

/-- The `request()` flow: the `Promise` executor runs synchronously, so the
pending entry is recorded before `await sendBytes(frame)`; if the send
rejects, the async function rethrows to the caller but never touches the
pending map (only the 10 s timer would remove the entry later). -/
def request (st : TrackerState) (sendOk : Bool) :
    List ReqAction × TrackerState × ReqOutcome :=
  let mid := st.messageId
  let st' : TrackerState := ⟨st.messageId + 1, st.pending ++ [mid]⟩
  ([.registerPending mid, .sendFrame mid], st',
   if sendOk then .awaiting mid else .transportError)

/-! ### Event bus (`on` / `once` / `off` / `emit` of the controller)

A subscriber is abstracted by whether it was registered through `once` and
whether its callback throws when invoked.  `emit` is
`callbacks.forEach(cb => cb(...args))`: `forEach` captures the length up
front and skips indices no longer present; a throwing callback propagates out
of `forEach`, aborting the delivery.  The `once` wrapper is
`callback(...args); this.off(event, wrapper)` — `off` runs only when the
callback returned normally, and `splice` removes the wrapper at its current
index (which is the index just visited, since callbacks are distinct). -/

structure Sub where
  id : Nat
  once : Bool
  throws : Bool
deriving Repr, DecidableEq

structure EmitResult where
  invoked : List Nat
  table : List Sub
  raised : Bool
deriving Repr, DecidableEq

/-- The `forEach` walk: `remaining` counts down from the captured length,
`k` is the current index into the mutating array. -/
def emitLoop : Nat → Nat → List Sub → List Nat → EmitResult
  | 0, _, arr, inv => ⟨inv.reverse, arr, false⟩
  | remaining + 1, k, arr, inv =>
    match arr.get? k with
    | none => emitLoop remaining (k + 1) arr inv
    | some s =>
      if s.throws then ⟨(s.id :: inv).reverse, arr, true⟩
      else if s.once then emitLoop remaining (k + 1) (arr.eraseIdx k) (s.id :: inv)
      else emitLoop remaining (k + 1) arr (s.id :: inv)

/-- `emit(event, ...)` on the subscriber list of one event. -/
def emit (arr : List Sub) : EmitResult :=
  emitLoop arr.length 0 arr []

/-! ### Announcement parsing (`parseAnnouncement` in the protocol file) -/

structure DeviceInfo where
  deviceType : List Char
  firmwareVersion : List Char
  serialNumber : List Char
deriving Repr, DecidableEq

/-- JS `s.trim()`: strip whitespace from both ends. -/
def jsTrim (s : List Char) : List Char :=
  ((s.dropWhile Char.isWhitespace).reverse.dropWhile Char.isWhitespace).reverse

/-- JS `s.startsWith(p)`. -/
def jsStartsWith : List Char → List Char → Bool
  | _, [] => true
  | [], _ :: _ => false
  | c :: cs, p :: ps => c = p && jsStartsWith cs ps

/-- `text.split(/\s+/)[0]` for an already-trimmed string. -/
def firstToken (s : List Char) : List Char :=
  s.takeWhile (fun c => !c.isWhitespace)

/-- `parts[1].replace(/^v/, '')`. -/
def stripLeadingV (s : List Char) : List Char :=
  match s with
  | 'v' :: rest => rest
  | other => other

/-- `parseAnnouncement(data)` on the decoded ASCII text.  The branch guard is
`text.startsWith('VelocitySP-v')` — the whole-prefix test, not a check of the
first dash component — and the outer else stores the *entire* trimmed text. -/
def parseAnnouncement (raw : List Char) : DeviceInfo :=
  let text := jsTrim raw
  if jsStartsWith text "VelocitySP-v".toList then
    let front := firstToken text
    let parts := jsSplit '-' front
    if 4 ≤ parts.length then
      { firmwareVersion := stripLeadingV (parts.getD 1 []),
        deviceType := parts.getD 2 [],
        serialNumber := parts.getD 3 [] }
    else
      { deviceType := front, firmwareVersion := "Unknown".toList,
        serialNumber := "Unknown".toList }
  else
    { deviceType := text, firmwareVersion := "Unknown".toList,
      serialNumber := "Unknown".toList }

/-! ### Spec-side definitions

`optionNumbers` follows the spec's words (§3, §4.C: canonical RFC 7252
nibble form, extended fields for values 13 and 14) and is used to compare
the built option stream against the spec's reading of it. -/

/-- Decode the sequence of option numbers from a CoAP option byte stream,
per the spec's description of the nibble/extended-field form.  Stops at the
payload marker `0xFF`, on a reserved nibble 15, or on truncated input.  Each
step consumes at least one byte, so `bytes.length + 1` fuel always suffices. -/
def optionNumbersAux : Nat → Nat → List Nat → List Nat
  | 0, _, _ => []
  | fuel + 1, cur, bytes =>
    match bytes with
    | [] => []
    | b :: rest =>
      if b = 0xFF then []
      else
        let dn := b / 16
        let ln := b % 16
        let deltaExt : Option (Nat × List Nat) :=
          if dn < 13 then some (dn, rest)
          else if dn = 13 then
            match rest with
            | e :: r => some (13 + e, r)
            | [] => none
          else if dn = 14 then
            match rest with
            | e1 :: e2 :: r => some (269 + e1 * 256 + e2, r)
            | _ => none
          else none
        match deltaExt with
        | none => []
        | some (delta, r1) =>
          let lenExt : Option (Nat × List Nat) :=
            if ln < 13 then some (ln, r1)
            else if ln = 13 then
              match r1 with
              | e :: r => some (13 + e, r)
              | [] => none
            else if ln = 14 then
              match r1 with
              | e1 :: e2 :: r => some (269 + e1 * 256 + e2, r)
              | _ => none
            else none
          match lenExt with
          | none => []
          | some (len, r2) =>
            (cur + delta) :: optionNumbersAux fuel (cur + delta) (r2.drop len)

def optionNumbers (bytes : List Nat) : List Nat :=
  optionNumbersAux (bytes.length + 1) 0 bytes

/-! ### Helper lemmas -/

lemma trackerAfter_messageId (n : Nat) : (trackerAfter n).messageId = n + 1 := by
  induction n with
  | zero => rfl
  | succ n ih => simp [trackerAfter, allocateMid, ih]

lemma trackerAfter_pending (n : Nat) :
    (trackerAfter n).pending = (List.range n).map (· + 1) := by
  induction n with
  | zero => rfl
  | succ n ih =>
    simp [trackerAfter, allocateMid, ih, trackerAfter_messageId, List.range_succ]

lemma nthMid_eq (n : Nat) : nthMid n = n + 1 := by
  show (trackerAfter n).messageId = n + 1
  exact trackerAfter_messageId n

/-! ### Claims -/

/-- Claim C1: the claim asserts `decode(encode(C, p))` returns the payload
unchanged with a matching checksum for every `p`.  The code falsifies it and
contradicts its own escape machinery: the decoder breaks at the first raw
`0x3C` before consuming a pending escape, so payload `[0x3C]` decodes to `[]`;
the encoder checksums through the padding EOF while the decoder recomputes
only up to the first EOF, so payload `[0x41]` decodes with a checksum
mismatch; `encode(C, [])` is 7 bytes, which the decoder rejects as too
short; and the JS falsy `reverseMap[0x30] || b` turns payload `[0x00]` into
`[0x30]`. -/
theorem mup1_roundtrip_fails :
    decodeFrame (encodeFrame 0x43 [0x3C])
      = .ok ⟨0x43, [], [0x32, 0x39, 0x38, 0x30], [0x36, 0x35, 0x38, 0x30]⟩
    ∧ decodeFrame (encodeFrame 0x43 []) = .error "Frame too short"
    ∧ decodeFrame (encodeFrame 0x43 [0x41])
      = .ok ⟨0x43, [0x41], [0x34, 0x34, 0x38, 0x30], [0x38, 0x30, 0x38, 0x30]⟩
    ∧ decodeFrame (encodeFrame 0x43 [0x00])
      = .ok ⟨0x43, [0x30], [0x32, 0x39, 0x38, 0x43], [0x32, 0x39, 0x38, 0x43]⟩ :=
  ⟨rfl, rfl, rfl, rfl⟩

/-- Claim C2, counterexample: encoding a ping frame does not produce the
claimed bytes `3E 50 3C 3C 38 35 37 33`. -/
theorem mup1_ping_claim_counterexample :
    encodeFrame 0x50 [] ≠ [0x3E, 0x50, 0x3C, 0x3C, 0x38, 0x35, 0x37, 0x33] := by
  decide

/-- Claim C2, amended: the ping frame is the seven bytes
`3E 50 3C 38 35 41 46` — no padding EOF, checksum
`~(0x3E50 + 0x3C00) = 0x85AF` — because the code adds the second EOF iff the
frame length up to and including the first EOF is even (not odd): in general
the encoded frame has length `7 + e + 1` when `3 + e` is even and `7 + e`
otherwise, with `e` the escaped-payload length. -/
theorem mup1_ping_encoding_amended :
    encodeFrame 0x50 [] = [0x3E, 0x50, 0x3C, 0x38, 0x35, 0x41, 0x46]
    ∧ ∀ (type : Nat) (data : List Nat),
        (encodeFrame type data).length
          = 7 + (escapeData data).length
            + (if (3 + (escapeData data).length) % 2 = 0 then 1 else 0) := by
  refine ⟨rfl, ?_⟩
  intro t d
  simp only [encodeFrame]
  have h1 : (SOF :: t :: escapeData d ++ [EOF]).length = 3 + (escapeData d).length := by
    simp [List.length_cons, List.length_append]
    omega
  simp only [h1]
  by_cases h : (3 + (escapeData d).length) % 2 = 0 <;>
    simp [h, checksumAscii, List.length_append] <;> omega

/-- Claim C3: for the S4 URI the code emits the first Uri-Path option as
`0xBD 0x0D` (nibble 13, extended byte 13) for a segment of length 26 — not
25 as claimed — and emits the second option with *no* first byte at all:
since `delta = 0` the source's `firstByte` stays `0`, the falsy guard
`if (firstByte)` skips the push, and only the extended length byte `9`
precedes the 22 segment characters. -/
theorem coap_uripath_option_encoding :
    "ietf-interfaces:interfaces".toList.length = 26
    ∧ "interface[name=\x27eth0\x27]".toList.length = 22
    ∧ encodeOptions "/ietf-interfaces:interfaces/interface[name=\x27eth0\x27]".toList
        = [0xBD, 13] ++ segmentChars "ietf-interfaces:interfaces".toList
          ++ [9] ++ segmentChars "interface[name=\x27eth0\x27]".toList ++ [0x11, 60] :=
  ⟨rfl, rfl, rfl⟩

/-- Claim C4: a `0x84` (4.04) response matching pending mid 7 is rejected in
the same dispatch turn with `code = 0x84`, but the reason is `"Error 132"`,
not `"Not Found"`: `RESPONSE_CODES` is keyed by human-readable decimals such
as 404, yet `handleResponse` indexes it with the raw code byte 132, so the
lookup always misses. -/
theorem coap_notfound_reason :
    handleResponse [7] [0x40, 0x84, 0x00, 0x07] = ([], .rejected 7 0x84 "Error 132")
    ∧ errorReason 0x84 = "Error 132"
    ∧ errorReason 0x84 ≠ "Not Found"
    ∧ RESPONSE_CODES 404 = some "Not Found" := by
  refine ⟨rfl, rfl, ?_, rfl⟩
  decide

/-- Claim C5, counterexample: the message built for a payload-free GET of
`/c` still contains the Content-Format option — its option numbers are
`[11, 12]`, refuting "a message built with no payload contains no
option 12". -/
theorem coap_get_contains_content_format :
    buildMessage 1 "/c".toList none 1 = [0x40, 1, 0, 1, 0xB1, 0x63, 0x11, 60]
    ∧ optionNumbers ((buildMessage 1 "/c".toList none 1).drop 4) = [11, 12] :=
  ⟨rfl, rfl⟩

/-- Claim C5, amended: the Content-Format option (number 12, single byte 60)
is emitted unconditionally — present in every built message, with or without
a payload: `encodeOptions` always places the two Content-Format bytes
between the path options and the query options, and a payload-free
`buildMessage` is exactly header plus options. -/
theorem coap_content_format_always :
    (∀ uri : List Char, ∃ pre post : List Nat,
        encodeOptions uri
          = pre ++ (((12 - (uriPathOptions (uriSegments uri)).2) <<< 4) ||| 1) :: 60 :: post)
    ∧ (∀ (method : Nat) (uri : List Char) (mid : Nat),
        buildMessage method uri none mid
          = 0x40 :: method :: ((mid >>> 8) &&& 0xFF) :: (mid &&& 0xFF) :: encodeOptions uri)
    ∧ optionNumbers ((buildMessage 1 "/ietf-system:system-state".toList none 2).drop 4)
        = [11, 12] := by
  refine ⟨?_, ?_, rfl⟩
  · intro uri
    simp only [encodeOptions]
    split
    · exact ⟨(uriPathOptions (uriSegments uri)).1, [], rfl⟩
    · exact ⟨(uriPathOptions (uriSegments uri)).1,
        uriQueryOptions ((jsSplit '?' uri).getD 1 []), by simp⟩
  · intro m uri mid
    simp [buildMessage]

/-- Claim C6, counterexample: the 65536th `request()` call allocates mid
65536, outside `[0, 65535]` — the counter never wraps modulo 2^16. -/
theorem mid_counter_exceeds_16bit :
    nthMid 65535 = 65536 ∧ ¬ nthMid 65535 ≤ 65535 := by
  have h : nthMid 65535 = 65536 := nthMid_eq 65535
  refine ⟨h, ?_⟩
  rw [h]
  omega

/-- Claim C6, amended: mids are allocated by post-incrementing an unbounded
counter that starts at 1: the `n`-th call (0-based) allocates `n + 1`, and
after `n` calls the pending map holds exactly `1 .. n` in order — strictly
monotonic, never reduced modulo 2^16, with no collision (`TooManyInFlight`)
handling anywhere; only the wire header truncates the mid to 16 bits. -/
theorem mid_allocation_amended :
    ∀ n : Nat, nthMid n = n + 1
      ∧ (trackerAfter n).pending = (List.range n).map (· + 1) := by
  intro n
  exact ⟨nthMid_eq n, trackerAfter_pending n⟩

/-- Claim C7, counterexample: a `once` subscriber whose callback throws is
*not* removed — it is invoked again by the next `emit` — and a throwing
callback prevents the later-registered subscriber 1 from firing. -/
theorem once_throwing_counterexample :
    (emit [⟨0, true, true⟩]).table = [⟨0, true, true⟩]
    ∧ (emit [⟨0, true, true⟩]).invoked = [0]
    ∧ (emit ((emit [⟨0, true, true⟩]).table)).invoked = [0]
    ∧ (emit [⟨0, false, true⟩, ⟨1, false, false⟩]).invoked = [0] := by
  decide

/-- Claim C7, amended: a `once` subscriber is invoked and removed exactly
once only when its callback returns normally; any subscriber whose callback
throws ends the delivery immediately (nothing later fires, nothing is
removed); and even the normal `once` removal splices the array during
`forEach`, making the immediately following subscriber be skipped in that
same delivery. -/
theorem emitter_amended :
    emit [⟨0, true, false⟩, ⟨1, false, false⟩] = ⟨[0], [⟨1, false, false⟩], false⟩
    ∧ (∀ (id : Nat) (o : Bool) (rest : List Sub),
        emit (⟨id, o, true⟩ :: rest) = ⟨[id], ⟨id, o, true⟩ :: rest, true⟩)
    ∧ emit [⟨0, false, false⟩, ⟨1, true, false⟩] = ⟨[0, 1], [⟨0, false, false⟩], false⟩ := by
  refine ⟨by decide, ?_, by decide⟩
  intro id o rest
  simp [emit, emitLoop]

/-- Claim C8, counterexample: when the transport write fails, the pending
entry is *not* removed — after a failed `request()` on a fresh tracker the
pending map still holds the allocated mid 1 while the caller sees the
transport error. -/
theorem request_fail_counterexample :
    (request initialTracker false).2.1.pending = [1]
    ∧ (request initialTracker false).2.2 = .transportError := by
  decide

/-- Claim C8, amended: the pending entry is recorded before the frame is
handed to the transport (registration strictly precedes the send in the
action trace), and a failing write surfaces to the caller as the transport
error — but the pending entry stays in the map either way; only the 10 s
timeout would remove it. -/
theorem request_order_amended :
    ∀ (st : TrackerState) (b : Bool),
      (request st b).1 = [.registerPending st.messageId, .sendFrame st.messageId]
      ∧ (request st b).2.1.pending = st.pending ++ [st.messageId]
      ∧ ((request st b).2.2 = .transportError ↔ b = false) := by
  intro st b
  cases b <;> simp [request]

/-- Claim C9, counterexample: for a payload whose first token dash-splits
into 4 components with first component `VelocitySP` but whose second
component lacks the leading `v`, the code does *not* take the positive
branch: it requires the literal prefix `VelocitySP-v`, and its negative
branch stores the entire text (not the first token). -/
theorem announce_prefix_counterexample :
    parseAnnouncement "VelocitySP-2025.06-LAN9662-ung8291 326 300 2".toList
      = ⟨"VelocitySP-2025.06-LAN9662-ung8291 326 300 2".toList,
         "Unknown".toList, "Unknown".toList⟩
    ∧ (jsSplit '-' "VelocitySP-2025.06-LAN9662-ung8291".toList).length = 4
    ∧ (jsSplit '-' "VelocitySP-2025.06-LAN9662-ung8291".toList).getD 0 []
        = "VelocitySP".toList
    ∧ parseAnnouncement "VelocitySP-2025.06-LAN9662-ung8291 326 300 2".toList
        ≠ ⟨"LAN9662".toList, "2025.06".toList, "ung8291".toList⟩ := by
  refine ⟨rfl, rfl, rfl, ?_⟩
  decide

/-- Claim C9, amended: the positive branch is taken iff the trimmed payload
starts with the literal `VelocitySP-v` (so component 1 always begins with
`v`) and the first token has at least 4 dash components; with the prefix but
fewer components, `device_type` is the first token; without the prefix,
`device_type` is the *entire* trimmed payload and the other fields are
`"Unknown"`. -/
theorem parse_announcement_amended :
    parseAnnouncement "VelocitySP-v2025.06-LAN9662-ung8291 326 300 2".toList
      = ⟨"LAN9662".toList, "2025.06".toList, "ung8291".toList⟩
    ∧ (∀ s : List Char, jsStartsWith (jsTrim s) "VelocitySP-v".toList = false →
        parseAnnouncement s = ⟨jsTrim s, "Unknown".toList, "Unknown".toList⟩)
    ∧ parseAnnouncement "VelocitySP-v1 x".toList
      = ⟨"VelocitySP-v1".toList, "Unknown".toList, "Unknown".toList⟩ := by
  refine ⟨rfl, ?_, rfl⟩
  intro s h
  simp only [parseAnnouncement]
  rw [h]
  simp

/-- Witness for the amended C9 theorem at the concrete payload `hello`. -/
theorem parse_announcement_amended_witness :
    parseAnnouncement "hello".toList
      = ⟨"hello".toList, "Unknown".toList, "Unknown".toList⟩ :=
  parse_announcement_amended.2.1 "hello".toList (by decide)

/-- Claim C10: the reassembler ends the frame at the first raw `0x3C` after
the SOF without honouring escapes, so for payload `[0x3C, 0x41]` — whose
byte `0x3C` is escaped to the pair `5C 3C` — the complete 11-byte encoded
frame yields an 8-byte slice to the data callback: strictly shorter than,
and different from, the frame that was encoded. -/
theorem reassembler_truncates_escaped_eof :
    handleIncomingData (encodeFrame 0x43 [0x3C, 0x41])
      = ([[0x3E, 0x43, 0x5C, 0x3C, 0x41, 0x3C, 0x3C, 0x45]], [0x38, 0x34, 0x33])
    ∧ (encodeFrame 0x43 [0x3C, 0x41]).length = 11
    ∧ [0x3E, 0x43, 0x5C, 0x3C, 0x41, 0x3C, 0x3C, 0x45] ≠ encodeFrame 0x43 [0x3C, 0x41] := by
  refine ⟨rfl, rfl, ?_⟩
  decide

end VelocityDrive
